import Mathlib

/-!
Verification of the contour CDS cluster cache and cluster visitor
(`internal/contour/cluster.go`).

The file embeds, in Lean, the data model and the operations of the two
components of that file:

* the versioned snapshot cache `clusterCache` with its operations
  `Register`, `Update`, `notify` and `Values`;
* the graph compiler `clusterVisitor` with `visit`/`edscluster` and the
  helpers `edslbstrategy`, `edshealthcheck`, `uint32OrNil`, `edsconfig`,
  `apiconfigsource`.

Go maps that the source iterates in insertion-irrelevant order are embedded
as association lists; the Go mutex is embedded by making every operation a
pure atomic step on the cache state; deliveries on waiter channels are
recorded as explicit delivery events.  A separate small model `Chan`/`chanSend`
captures the semantics of the Go channel send statement `ch <- c.last`
itself (buffered send, blocking when the buffer is full).
-/

namespace Contour

/-! ### Data model: the envoy `v2.Cluster` fields this source file populates -/

/-- `v2.Cluster_LbPolicy` values used by `edslbstrategy`. -/
inductive LbPolicy where
  | ROUND_ROBIN
  | LEAST_REQUEST
  | RING_HASH
  | MAGLEV
  | RANDOM
deriving DecidableEq, Repr

/-- `v2.Cluster_DiscoveryType`: this file only ever produces `EDS`. -/
inductive DiscoveryType where
  | EDS
deriving DecidableEq, Repr

/-- `types.UInt32Value`: protobuf optional unsigned 32-bit wrapper. -/
structure UInt32Value where
  Value : Nat
deriving DecidableEq, Repr

/-- `cluster.CircuitBreakers_Thresholds`: each limit is an optional wrapper,
`none` meaning the field is not set on the wire. -/
structure CircuitBreakersThresholds where
  MaxConnections : Option UInt32Value
  MaxPendingRequests : Option UInt32Value
  MaxRequests : Option UInt32Value
  MaxRetries : Option UInt32Value
deriving DecidableEq, Repr

/-- `cluster.CircuitBreakers`. -/
structure CircuitBreakers where
  Thresholds : List CircuitBreakersThresholds
deriving DecidableEq, Repr

/-- `auth.CommonTlsContext`: only the ALPN list is populated here. -/
structure CommonTlsContext where
  AlpnProtocols : List String
deriving DecidableEq, Repr

/-- `auth.UpstreamTlsContext`. -/
structure UpstreamTlsContext where
  CommonTlsContext : CommonTlsContext
deriving DecidableEq, Repr

/-- `core.GrpcService_EnvoyGrpc` target inside `apiconfigsource`. -/
structure GrpcService where
  ClusterName : String
deriving DecidableEq, Repr

/-- `core.ApiConfigSource_ApiType`: this file only produces `GRPC`. -/
inductive ApiType where
  | GRPC
deriving DecidableEq, Repr

/-- `core.ApiConfigSource`. -/
structure ApiConfigSource where
  ApiType : ApiType
  GrpcServices : List GrpcService
deriving DecidableEq, Repr

/-- `core.ConfigSource` with the `ApiConfigSource` specifier used here. -/
structure ConfigSource where
  ApiConfigSource : ApiConfigSource
deriving DecidableEq, Repr

/-- `v2.Cluster_EdsClusterConfig`. -/
structure EdsClusterConfig where
  EdsConfig : ConfigSource
  ServiceName : String
deriving DecidableEq, Repr

/-- The health-check spec `ingressroutev1.HealthCheck` is opaque to this
file: it is only tested against `nil` and passed whole to the external
mapper, so one abstract payload field suffices. -/
structure HealthCheckSpec where
  payload : Nat
deriving DecidableEq, Repr

/-- `core.HealthCheck` as produced by the external mapper. -/
structure CoreHealthCheck where
  fromSpec : HealthCheckSpec
deriving DecidableEq, Repr

/-- The fields of `v2.Cluster` that `edscluster` populates.  `ConnectTimeout`
is kept in milliseconds; `Http2ProtocolOptions` is an empty message in the
source, so presence is a `Bool`; `HealthyPanicThresholdPercent` embeds the
`CommonLbConfig.HealthyPanicThreshold` percent value. -/
structure Cluster where
  Name : String
  Type_ : DiscoveryType
  EdsClusterConfig : EdsClusterConfig
  ConnectTimeoutMs : Nat
  LbPolicy : LbPolicy
  HealthyPanicThresholdPercent : Nat
  HealthChecks : List CoreHealthCheck
  CircuitBreakers : Option CircuitBreakers
  Http2ProtocolOptions : Bool
  TlsContext : Option UpstreamTlsContext
deriving DecidableEq, Repr

/-! ### Data model: the `dag.Service` vertex fields this file reads -/

/-- The Kubernetes `ServicePort` fields read here: its name and number. -/
structure ServicePort where
  Name : String
  Port : Int
deriving DecidableEq, Repr

/-- The fields of `dag.Service` that `cluster.go` reads (`Namespace()` and
`Name()` are accessor methods in Go). -/
structure Service where
  Namespace : String
  Name : String
  ServicePort : ServicePort
  LoadBalancerStrategy : String
  HealthCheck : Option HealthCheckSpec
  MaxConnections : Int
  MaxPendingRequests : Int
  MaxRequests : Int
  MaxRetries : Int
  Protocol : String
deriving DecidableEq, Repr

/-! ### The versioned snapshot cache (`clusterCache`) -/

/-- The cache's Go map `map[string]*v2.Cluster` embedded as an association
list from cluster name to cluster. -/
abbrev ClusterMap := List (String × Cluster)

/-- A delivery event: version `version` was sent on waiter channel
`waiter` (`ch <- c.last` in the source). -/
structure Delivery where
  waiter : Nat
  version : Int
deriving DecidableEq, Repr

/-- The `clusterCache` state: the stored snapshot, the pending waiter
channels (identified by channel id), and the version counter `last`.
The Go mutex serialises the three operations, so each is embedded as one
atomic step; an operation returns the new state together with the delivery
events it performed. -/
structure clusterCache where
  values : ClusterMap
  waiters : List Nat
  last : Int
deriving DecidableEq, Repr

/-- The zero value of `clusterCache`: empty snapshot, no waiters, `last = 0`. -/
def initialCache : clusterCache :=
  { values := [], waiters := [], last := 0 }

/-- `clusterCache.Register(ch, last)`: under the lock, if `last < c.last`
the channel is notified immediately with the current version and the state
is unchanged; otherwise `ch` is appended to the waiter list with no
delivery. -/
def Register (c : clusterCache) (ch : Nat) (last : Int) :
    clusterCache × List Delivery :=
  if last < c.last then
    (c, [⟨ch, c.last⟩])
  else
    ({ c with waiters := c.waiters ++ [ch] }, [])

/-- `clusterCache.notify()`: increments `last`, sends the new `c.last` on
every waiter channel, and truncates the waiter list to empty
(`c.waiters = c.waiters[:0]`). -/
def notify (c : clusterCache) : clusterCache × List Delivery :=
  ({ c with last := c.last + 1, waiters := [] },
   c.waiters.map fun ch => ⟨ch, c.last + 1⟩)

/-- `clusterCache.Update(v)`: under the lock, replaces the stored map with
`v` and calls `notify`. -/
def Update (c : clusterCache) (v : ClusterMap) :
    clusterCache × List Delivery :=
  notify { c with values := v }

/-- `clusterCache.Values(filter)`: under the lock, collects every stored
cluster whose `Name` field satisfies the filter. -/
def Values (c : clusterCache) (filter : String → Bool) : List Cluster :=
  (c.values.map Prod.snd).filter fun cl => filter cl.Name

/-- One external call against the cache, for reasoning about call
sequences. -/
inductive CacheOp where
  | update : ClusterMap → CacheOp
  | register : Nat → Int → CacheOp
deriving Repr

/-- The state after one call (the deliveries are dropped here). -/
def stepOp (c : clusterCache) : CacheOp → clusterCache
  | .update v => (Update c v).1
  | .register ch last => (Register c ch last).1

/-- The state after a sequence of calls. -/
def runOps (c : clusterCache) (ops : List CacheOp) : clusterCache :=
  List.foldl stepOp c ops

/-- The number of `Update` calls in a call sequence. -/
def countUpdates (ops : List CacheOp) : Int :=
  ((ops.countP fun op =>
    match op with
    | .update _ => true
    | .register _ _ => false : Nat) : Int)

/-! ### The Go channel send itself

The two delivery sites (`ch <- c.last` in `Register` and in `notify`) are
plain Go sends on a buffered channel.  A plain send on a buffered channel
completes immediately exactly when the buffer has spare capacity; with a
full buffer (and no receiver able to run — both sends happen with the cache
mutex held) the sender blocks. -/

/-- A Go channel `chan int`: its capacity and current buffer contents. -/
structure Chan where
  cap : Nat
  buf : List Int
deriving DecidableEq, Repr

/-- The Go statement `ch <- v` on a buffered channel: `some` of the new
channel state when the buffer has room, `none` when the buffer is full and
the send blocks. -/
def chanSend (ch : Chan) (v : Int) : Option Chan :=
  if ch.buf.length < ch.cap then
    some { ch with buf := ch.buf ++ [v] }
  else
    none

/-! ### The cluster translator (`edscluster` body and its helpers) -/

/-- `edslbstrategy`: maps the vertex's load-balancer strategy string to an
envoy policy, defaulting to round robin. -/
def edslbstrategy (lbStrategy : String) : LbPolicy :=
  match lbStrategy with
  | "WeightedLeastRequest" => .LEAST_REQUEST
  | "RingHash" => .RING_HASH
  | "Maglev" => .MAGLEV
  | "Random" => .RANDOM
  | _ => .ROUND_ROBIN

/-- Modelled from the spec: the helper `u32` lives elsewhere in the same Go
package and is not among the given files.  Per the spec each present limit
"becomes an explicit optional threshold" carrying its value, so `u32` wraps
the value in the optional unsigned-32 wrapper. -/
def u32 (val : Int) : UInt32Value :=
  ⟨val.toNat⟩

/-- `uint32OrNil`: `nil` for zero (the `case 0` of the Go switch), the
wrapped value otherwise. -/
def uint32OrNil (val : Int) : Option UInt32Value :=
  if val = 0 then none else some (u32 val)

/-- Modelled from the spec: `envoy.HealthCheck` (package `internal/envoy`,
not among the given files) is the "external health-check-descriptor mapper
(out of scope)" that derives exactly one entry from the spec. -/
def envoyHealthCheck (hc : HealthCheckSpec) : CoreHealthCheck :=
  ⟨hc⟩

/-- `edshealthcheck`: empty list when no health-check spec is present, else
exactly one mapped entry. -/
def edshealthcheck (hc : Option HealthCheckSpec) : List CoreHealthCheck :=
  match hc with
  | none => []
  | some h => [envoyHealthCheck h]

/-- `apiconfigsource`: one gRPC service entry per named cluster, wrapped in
an API config source of type GRPC. -/
def apiconfigsource (clusters : List String) : ConfigSource :=
  { ApiConfigSource :=
      { ApiType := .GRPC
        GrpcServices := clusters.map fun c => { ClusterName := c } } }

/-- `edsconfig`: builds the EDS service name as the slash-join of
namespace, name and port name, dropping the port segment when the port
name is empty (`name = name[:2]`). -/
def edsconfig (source : String) (service : Service) : EdsClusterConfig :=
  let name : List String :=
    if service.ServicePort.Name = "" then
      [service.Namespace, service.Name]
    else
      [service.Namespace, service.Name, service.ServicePort.Name]
  { EdsConfig := apiconfigsource [source]
    ServiceName := String.intercalate "/" name }

/-- Modelled from the spec: `envoy.Clustername` (package `internal/envoy`,
not among the given files) is the Name/Identity Resolver, which "builds a
deterministic slash-joined path from namespace, name, and port-name,
omitting the port segment when the port has no name". -/
def Clustername (svc : Service) : String :=
  if svc.ServicePort.Name = "" then
    String.intercalate "/" [svc.Namespace, svc.Name]
  else
    String.intercalate "/" [svc.Namespace, svc.Name, svc.ServicePort.Name]

/-- The cluster object built inside `edscluster` for one service vertex:
EDS discovery with the `"contour"` config source, fixed 250 ms connect
timeout, mapped LB policy, healthy-panic threshold forced to 0, optional
health check, circuit breakers only when some limit is positive, and the
protocol switch for `h2`/`h2c`. -/
def translateCluster (svc : Service) : Cluster :=
  let base : Cluster :=
    { Name := Clustername svc
      Type_ := .EDS
      EdsClusterConfig := edsconfig "contour" svc
      ConnectTimeoutMs := 250
      LbPolicy := edslbstrategy svc.LoadBalancerStrategy
      HealthyPanicThresholdPercent := 0
      HealthChecks := edshealthcheck svc.HealthCheck
      CircuitBreakers := none
      Http2ProtocolOptions := false
      TlsContext := none }
  let withCB : Cluster :=
    if 0 < svc.MaxConnections ∨ 0 < svc.MaxPendingRequests ∨
        0 < svc.MaxRequests ∨ 0 < svc.MaxRetries then
      { base with
          CircuitBreakers := some
            { Thresholds :=
                [{ MaxConnections := uint32OrNil svc.MaxConnections
                   MaxPendingRequests := uint32OrNil svc.MaxPendingRequests
                   MaxRequests := uint32OrNil svc.MaxRequests
                   MaxRetries := uint32OrNil svc.MaxRetries }] } }
    else
      base
  if svc.Protocol = "h2" then
    { withCB with
        Http2ProtocolOptions := true
        TlsContext := some { CommonTlsContext := { AlpnProtocols := ["h2"] } } }
  else if svc.Protocol = "h2c" then
    { withCB with Http2ProtocolOptions := true }
  else
    withCB

/-! ### The graph visitor (`clusterVisitor`) -/

/-- A `dag.Vertex`: either a `*dag.Service` vertex or some other vertex
kind; both expose their children for recursion. -/
inductive Vertex where
  | service : Service → List Vertex → Vertex
  | generic : List Vertex → Vertex
deriving Repr

/-- Whether the accumulator already holds an entry under this key
(`if _, ok := v.clusters[name]; ok`). -/
def hasKey (m : ClusterMap) (k : String) : Bool :=
  m.any fun p => p.1 = k

/-- Go map read `v.clusters[k]` on the association list (first entry wins;
the visitor never inserts a key twice, as proved below). -/
def findCluster (m : ClusterMap) (k : String) : Option Cluster :=
  match m with
  | [] => none
  | (k', c) :: rest => if k' = k then some c else findCluster rest k

/-- `clusterVisitor.edscluster`: skip when the name was already created via
another edge, otherwise translate the vertex and insert the result under
its own `Name` (`v.clusters[c.Name] = c`). -/
def edscluster (m : ClusterMap) (svc : Service) : ClusterMap :=
  let name := Clustername svc
  if hasKey m name then
    m
  else
    let c := translateCluster svc
    m ++ [(c.Name, c)]

mutual

/-- `clusterVisitor.visit`: translate the vertex when it is a service,
then recurse into its children in either case. -/
def visit (m : ClusterMap) : Vertex → ClusterMap
  | .service svc children => visitList (edscluster m svc) children
  | .generic children => visitList m children

/-- Visiting a list of child vertices in order. -/
def visitList (m : ClusterMap) : List Vertex → ClusterMap
  | [] => m
  | v :: vs => visitList (visit m v) vs

end

/-- `clusterVisitor.Visit`: one compilation pass over the graph roots,
starting from a fresh empty accumulator. -/
def VisitGraph (roots : List Vertex) : ClusterMap :=
  visitList [] roots

/-- The keys of the accumulator. -/
def keys (m : ClusterMap) : List String :=
  m.map Prod.fst

/-- No slash occurs in the string.  Kubernetes namespaces, names and port
names are slash-free DNS labels, the well-formedness the spec's identity
contract presumes of "inputs the graph can produce". -/
def slashFree (x : String) : Bool :=
  x.data.all fun c => c != '/'

/-- A concrete service vertex (namespace `d`, name `w`, port `p`) used as a
witness input. -/
def svcPlain : Service :=
  { Namespace := "d", Name := "w", ServicePort := ⟨"p", 1⟩,
    LoadBalancerStrategy := "", HealthCheck := none, MaxConnections := 0,
    MaxPendingRequests := 0, MaxRequests := 0, MaxRetries := 0,
    Protocol := "" }

/-- A second service vertex with the same identity as `svcPlain` but a
different protocol, used as a witness input. -/
def svcH2c : Service :=
  { svcPlain with Protocol := "h2c" }

/-! ### Lemmas about the cache -/

lemma register_of_not_lt (c : clusterCache) (w : Nat) (l : Int) (h : ¬ l < c.last) :
    Register c w l = ({ c with waiters := c.waiters ++ [w] }, []) := by
  simp [Register, h]

lemma deliveries_filter_of_not_mem (ws : List Nat) (w : Nat) (ver : Int)
    (hw : w ∉ ws) :
    ((ws.map fun ch => (⟨ch, ver⟩ : Delivery)).filter fun d => d.waiter == w) = [] := by
  rw [List.filter_eq_nil_iff]
  intro d hd
  simp only [List.mem_map] at hd
  obtain ⟨ch, hch, rfl⟩ := hd
  simp only [beq_iff_eq]
  exact fun h => hw (h ▸ hch)

lemma deliveries_filter_of_nodup (ws : List Nat) (w : Nat) (ver : Int)
    (hnd : ws.Nodup) (hw : w ∈ ws) :
    ((ws.map fun ch => (⟨ch, ver⟩ : Delivery)).filter fun d => d.waiter == w) =
      [⟨w, ver⟩] := by
  induction ws with
  | nil => cases hw
  | cons a t ih =>
    rcases List.mem_cons.mp hw with rfl | hmem
    · have hat : w ∉ t := (List.nodup_cons.mp hnd).1
      simp only [List.map_cons, List.filter_cons, beq_self_eq_true, if_pos]
      rw [deliveries_filter_of_not_mem t w ver hat]
    · have ha : ¬ (a == w) = true := by
        simp only [beq_iff_eq]
        intro h
        exact (List.nodup_cons.mp hnd).1 (h ▸ hmem)
      simp only [List.map_cons, List.filter_cons, ha, if_neg, Bool.false_eq_true,
        not_false_eq_true, if_false]
      exact ih (List.nodup_cons.mp hnd).2 hmem

lemma runOps_last (ops : List CacheOp) :
    ∀ c : clusterCache, (runOps c ops).last = c.last + countUpdates ops := by
  induction ops with
  | nil => intro c; simp [runOps, countUpdates]
  | cons op t ih =>
    intro c
    have hstep : runOps c (op :: t) = runOps (stepOp c op) t := rfl
    rw [hstep, ih]
    cases op with
    | update v =>
        simp only [stepOp, Update, notify, countUpdates, List.countP_cons]
        push_cast
        omega
    | register w l =>
        have hlast : (stepOp c (.register w l)).last = c.last := by
          simp only [stepOp, Register]
          split <;> rfl
        rw [hlast]
        simp only [countUpdates, List.countP_cons]
        rfl

/-! ### Theorems for the claims about the cache -/

/-- **C1**: a `Register(w, last)` call with `last` strictly below the
current version delivers the current version to `w` exactly once,
synchronously, and leaves the state (in particular the pending set)
unchanged; a call with `last` equal to the current version performs no
delivery and appends `w` to the pending set, and `w` then receives exactly
one delivery at the next `Update`. -/
theorem C1_register_delivery (c : clusterCache) (w : Nat) (l : Int)
    (v : ClusterMap) (hlt : l < c.last) (hfresh : w ∉ c.waiters) :
    Register c w l = (c, [⟨w, c.last⟩])
  ∧ (Register c w c.last).2 = []
  ∧ (Register c w c.last).1.waiters = c.waiters ++ [w]
  ∧ ((Update (Register c w c.last).1 v).2.filter fun d => d.waiter == w) =
      [⟨w, c.last + 1⟩] := by
  have heq := register_of_not_lt c w c.last (lt_irrefl c.last)
  refine ⟨by simp [Register, hlt], by rw [heq], by rw [heq], ?_⟩
  rw [heq]
  show (((c.waiters ++ [w]).map fun ch => (⟨ch, c.last + 1⟩ : Delivery)).filter
      fun d => d.waiter == w) = [⟨w, c.last + 1⟩]
  rw [List.map_append, List.filter_append,
    deliveries_filter_of_not_mem c.waiters w (c.last + 1) hfresh]
  simp

/-- **C1** witness: at `last = 5`, registering with `3` delivers version 5
immediately; registering with `5` waits and is delivered version 6 by the
next `Update`. -/
theorem C1_register_delivery_witness :
    Register { values := [], waiters := [], last := 5 } 7 3 =
      ({ values := [], waiters := [], last := 5 }, [⟨7, 5⟩])
  ∧ (Register { values := [], waiters := [], last := 5 } 7 5).2 = []
  ∧ (Register { values := [], waiters := [], last := 5 } 7 5).1.waiters = [] ++ [7]
  ∧ ((Update (Register { values := [], waiters := [], last := 5 } 7 5).1 []).2.filter
      fun d => d.waiter == 7) = [⟨7, 5 + 1⟩] :=
  C1_register_delivery { values := [], waiters := [], last := 5 } 7 3 []
    (by decide) (by decide)

/-- **C2**: `Update(v)` empties the pending-waiter set, delivers the new
version to exactly the waiters pending at the start of the call (in
registration order), each pending waiter receives the new version exactly
once, and no waiter receives more than one delivery. -/
theorem C2_update_delivers_all (c : clusterCache) (v : ClusterMap)
    (hnd : c.waiters.Nodup) :
    (Update c v).1.waiters = []
  ∧ (Update c v).2 = (c.waiters.map fun ch => ⟨ch, c.last + 1⟩)
  ∧ (∀ w ∈ c.waiters,
      ((Update c v).2.filter fun d => d.waiter == w) = [⟨w, c.last + 1⟩])
  ∧ (∀ w : Nat, ((Update c v).2.filter fun d => d.waiter == w).length ≤ 1) := by
  refine ⟨rfl, rfl, ?_, ?_⟩
  · intro w hw
    exact deliveries_filter_of_nodup c.waiters w (c.last + 1) hnd hw
  · intro w
    by_cases hw : w ∈ c.waiters
    · rw [show (Update c v).2 = c.waiters.map fun ch => (⟨ch, c.last + 1⟩ : Delivery) from rfl,
        deliveries_filter_of_nodup c.waiters w (c.last + 1) hnd hw]
      exact le_refl 1
    · rw [show (Update c v).2 = c.waiters.map fun ch => (⟨ch, c.last + 1⟩ : Delivery) from rfl,
        deliveries_filter_of_not_mem c.waiters w (c.last + 1) hw]
      exact Nat.zero_le 1

/-- **C2** witness: an `Update` on a cache with pending waiters 3 and 8
delivers to each exactly once and empties the pending set. -/
theorem C2_update_delivers_all_witness :
    (Update { values := [], waiters := [3, 8], last := 0 } []).1.waiters = []
  ∧ (Update { values := [], waiters := [3, 8], last := 0 } []).2 =
      ([3, 8].map fun ch => ⟨ch, 0 + 1⟩)
  ∧ (∀ w ∈ [3, 8],
      ((Update { values := [], waiters := [3, 8], last := 0 } []).2.filter
        fun d => d.waiter == w) = [⟨w, 0 + 1⟩])
  ∧ (∀ w : Nat, ((Update { values := [], waiters := [3, 8], last := 0 } []).2.filter
      fun d => d.waiter == w).length ≤ 1) :=
  C2_update_delivers_all { values := [], waiters := [3, 8], last := 0 } []
    (by decide)

/-- **C3**: the version counter starts at 0, is left unchanged by
`Register`, is incremented by exactly 1 by every `Update`, hence after any
call sequence it equals the number of `Update` calls and is strictly
increasing across `Update` calls. -/
theorem C3_version_monotone (c : clusterCache) (v : ClusterMap) (w : Nat)
    (l : Int) (ops : List CacheOp) :
    initialCache.last = 0
  ∧ (Update c v).1.last = c.last + 1
  ∧ (Register c w l).1.last = c.last
  ∧ (runOps initialCache ops).last = countUpdates ops
  ∧ c.last < (Update c v).1.last := by
  refine ⟨rfl, rfl, ?_, ?_, ?_⟩
  · simp only [Register]
    split <;> rfl
  · rw [runOps_last ops initialCache]
    show (0 : Int) + countUpdates ops = countUpdates ops
    ring
  · show c.last < c.last + 1
    omega

/-- **C5**: `Update(S)` replaces the snapshot wholesale: `Values` with the
always-true filter then returns exactly the entries of `S`, and in general
`Values` returns exactly the stored entries whose `Name` satisfies the
filter. -/
theorem C5_snapshot_replacement (c : clusterCache) (S : ClusterMap)
    (filter : String → Bool) (cl : Cluster) :
    Values (Update c S).1 (fun _ => true) = S.map Prod.snd
  ∧ Values (Update c S).1 filter = (S.map Prod.snd).filter (fun x => filter x.Name)
  ∧ (cl ∈ Values c filter ↔ ((∃ k, (k, cl) ∈ c.values) ∧ filter cl.Name = true)) := by
  refine ⟨?_, rfl, ?_⟩
  · show (S.map Prod.snd).filter (fun _ => true) = S.map Prod.snd
    simp
  · show cl ∈ (c.values.map Prod.snd).filter (fun x => filter x.Name) ↔ _
    rw [List.mem_filter, List.mem_map]
    constructor
    · rintro ⟨⟨⟨k, x⟩, hmem, rfl⟩, hf⟩
      exact ⟨⟨k, hmem⟩, hf⟩
    · rintro ⟨⟨k, hmem⟩, hf⟩
      exact ⟨⟨(k, cl), hmem, rfl⟩, hf⟩

/-- **C10**: a `Register(w, last)` call with `last` strictly greater than
the current version behaves exactly like the equal-version case: no
immediate delivery, `w` is appended to the pending set, and `w` receives
exactly one delivery (of the incremented version) at the next `Update`. -/
theorem C10_register_future_version (c : clusterCache) (w : Nat) (l : Int)
    (v : ClusterMap) (hgt : c.last < l) (hfresh : w ∉ c.waiters) :
    (Register c w l).2 = []
  ∧ (Register c w l).1.waiters = c.waiters ++ [w]
  ∧ Register c w l = Register c w c.last
  ∧ ((Update (Register c w l).1 v).2.filter fun d => d.waiter == w) =
      [⟨w, c.last + 1⟩] := by
  have hnl : ¬ l < c.last := not_lt_of_gt hgt
  have heq := register_of_not_lt c w l hnl
  have heq' := register_of_not_lt c w c.last (lt_irrefl c.last)
  refine ⟨by rw [heq], by rw [heq], by rw [heq, heq'], ?_⟩
  rw [heq]
  show (((c.waiters ++ [w]).map fun ch => (⟨ch, c.last + 1⟩ : Delivery)).filter
      fun d => d.waiter == w) = [⟨w, c.last + 1⟩]
  rw [List.map_append, List.filter_append,
    deliveries_filter_of_not_mem c.waiters w (c.last + 1) hfresh]
  simp

/-- **C10** witness: at `last = 2`, registering with the future value 9
appends the waiter, delivers nothing, and the next `Update` delivers
version 3 exactly once. -/
theorem C10_register_future_version_witness :
    (Register { values := [], waiters := [], last := 2 } 4 9).2 = []
  ∧ (Register { values := [], waiters := [], last := 2 } 4 9).1.waiters = [] ++ [4]
  ∧ Register { values := [], waiters := [], last := 2 } 4 9 =
      Register { values := [], waiters := [], last := 2 } 4 2
  ∧ ((Update (Register { values := [], waiters := [], last := 2 } 4 9).1 []).2.filter
      fun d => d.waiter == 4) = [⟨4, 2 + 1⟩] :=
  C10_register_future_version { values := [], waiters := [], last := 2 } 4 9 []
    (by decide) (by decide)

/-- **C4** (counterexample): the delivery statement `ch <- c.last` — used
both by `Register`'s immediate path and by `notify` — is a plain Go channel
send, not a select-with-default.  On a capacity-1 channel whose buffer
already holds an undrained value the send blocks, so "delivery never
blocks the notifying party, for any state of the receiving channel" is
false at this channel state. -/
theorem C4_counterexample :
    chanSend { cap := 1, buf := [0] } 1 = none := by
  decide

/-- **C4** (amended): delivery does not block the notifying party whenever
the receiving channel has spare buffer capacity at delivery time — in
particular a drained channel of the mandated capacity ≥ 1 — and it then
enqueues exactly the sent version; with a full buffer the plain send
blocks, which the capacity-≥1, keep-it-drained contract on the waiter's
owner is required to prevent. -/
theorem C4_send_nonblocking (ch : Chan) (v : Int)
    (hroom : ch.buf.length < ch.cap) :
    chanSend ch v = some { ch with buf := ch.buf ++ [v] } := by
  simp [chanSend, hroom]

/-- **C4** witness: on an empty capacity-1 channel the send completes and
enqueues the version. -/
theorem C4_send_nonblocking_witness :
    chanSend { cap := 1, buf := [] } 5 = some { cap := 1, buf := [] ++ [5] } :=
  C4_send_nonblocking { cap := 1, buf := [] } 5 (by decide)

/-! ### Lemmas about the translator -/

lemma translateCluster_circuitBreakers (svc : Service) :
    (translateCluster svc).CircuitBreakers =
      if 0 < svc.MaxConnections ∨ 0 < svc.MaxPendingRequests ∨
          0 < svc.MaxRequests ∨ 0 < svc.MaxRetries then
        some { Thresholds :=
          [{ MaxConnections := uint32OrNil svc.MaxConnections
             MaxPendingRequests := uint32OrNil svc.MaxPendingRequests
             MaxRequests := uint32OrNil svc.MaxRequests
             MaxRetries := uint32OrNil svc.MaxRetries }] }
      else none := by
  unfold translateCluster
  split <;> split <;> try split
  all_goals rfl

lemma translateCluster_Name (svc : Service) :
    (translateCluster svc).Name = Clustername svc := by
  unfold translateCluster
  split <;> split <;> try split
  all_goals rfl

lemma translateCluster_protocol_h2 (svc : Service) (h : svc.Protocol = "h2") :
    (translateCluster svc).Http2ProtocolOptions = true
  ∧ (translateCluster svc).TlsContext =
      some { CommonTlsContext := { AlpnProtocols := ["h2"] } } := by
  simp [translateCluster, h]

lemma translateCluster_protocol_h2c (svc : Service) (h : svc.Protocol = "h2c") :
    (translateCluster svc).Http2ProtocolOptions = true
  ∧ (translateCluster svc).TlsContext = none := by
  simp [translateCluster, h, apply_ite Cluster.TlsContext,
    apply_ite Cluster.Http2ProtocolOptions]

lemma translateCluster_protocol_default (svc : Service)
    (h : svc.Protocol ≠ "h2") (h' : svc.Protocol ≠ "h2c") :
    (translateCluster svc).Http2ProtocolOptions = false
  ∧ (translateCluster svc).TlsContext = none := by
  simp [translateCluster, h, h', apply_ite Cluster.TlsContext,
    apply_ite Cluster.Http2ProtocolOptions]

/-! ### Theorems for the claims about the translator -/

/-- **C8**: the translated cluster carries a circuit-breaker thresholds
block iff at least one of the four limits is positive; the block holds
exactly one thresholds entry whose fields are `uint32OrNil` of the four
limits; a zero limit is encoded as absent (`none`), and a positive limit
is encoded as exactly its value, never as a literal zero. -/
theorem C8_circuit_breakers (svc : Service) (v : Int) (hv : 0 < v) :
    ((translateCluster svc).CircuitBreakers.isSome = true ↔
      (0 < svc.MaxConnections ∨ 0 < svc.MaxPendingRequests ∨
       0 < svc.MaxRequests ∨ 0 < svc.MaxRetries))
  ∧ (∀ cb, (translateCluster svc).CircuitBreakers = some cb →
      cb.Thresholds =
        [{ MaxConnections := uint32OrNil svc.MaxConnections
           MaxPendingRequests := uint32OrNil svc.MaxPendingRequests
           MaxRequests := uint32OrNil svc.MaxRequests
           MaxRetries := uint32OrNil svc.MaxRetries }])
  ∧ uint32OrNil 0 = none
  ∧ uint32OrNil v = some ⟨v.toNat⟩
  ∧ uint32OrNil v ≠ some ⟨0⟩ := by
  have hvne : v ≠ 0 := ne_of_gt hv
  have hval : uint32OrNil v = some ⟨v.toNat⟩ := by
    simp [uint32OrNil, u32, hvne]
  refine ⟨?_, ?_, by simp [uint32OrNil], hval, ?_⟩
  · rw [translateCluster_circuitBreakers svc]
    split
    · next hc => simpa using hc
    · next hc => simpa using hc
  · intro cb hcb
    rw [translateCluster_circuitBreakers svc] at hcb
    rcases ite_eq_iff.mp hcb with ⟨_, heq⟩ | ⟨_, heq⟩
    · cases Option.some.inj heq
      rfl
    · cases heq
  · rw [hval]
    intro hcontra
    have : v.toNat = 0 := congrArg UInt32Value.Value (Option.some.inj hcontra)
    omega

/-- **C8** witness: a vertex with `MaxConnections = 5` and the other
limits zero gets a thresholds block with `MaxConnections = 5` and the
other three fields absent. -/
theorem C8_circuit_breakers_witness :
    ((translateCluster
        { Namespace := "default", Name := "web", ServicePort := ⟨"http", 80⟩,
          LoadBalancerStrategy := "", HealthCheck := none,
          MaxConnections := 5, MaxPendingRequests := 0, MaxRequests := 0,
          MaxRetries := 0, Protocol := "" }).CircuitBreakers.isSome = true ↔
      ((0:Int) < 5 ∨ (0:Int) < 0 ∨ (0:Int) < 0 ∨ (0:Int) < 0))
  ∧ (∀ cb, (translateCluster
        { Namespace := "default", Name := "web", ServicePort := ⟨"http", 80⟩,
          LoadBalancerStrategy := "", HealthCheck := none,
          MaxConnections := 5, MaxPendingRequests := 0, MaxRequests := 0,
          MaxRetries := 0, Protocol := "" }).CircuitBreakers = some cb →
      cb.Thresholds =
        [{ MaxConnections := uint32OrNil 5
           MaxPendingRequests := uint32OrNil 0
           MaxRequests := uint32OrNil 0
           MaxRetries := uint32OrNil 0 }])
  ∧ uint32OrNil 0 = none
  ∧ uint32OrNil 5 = some ⟨(5:Int).toNat⟩
  ∧ uint32OrNil 5 ≠ some ⟨0⟩ :=
  C8_circuit_breakers
    { Namespace := "default", Name := "web", ServicePort := ⟨"http", 80⟩,
      LoadBalancerStrategy := "", HealthCheck := none,
      MaxConnections := 5, MaxPendingRequests := 0, MaxRequests := 0,
      MaxRetries := 0, Protocol := "" } 5 (by decide)

/-- **C9**: the protocol field selects exactly one of three outcomes —
`"h2"` sets HTTP/2 options and a TLS context advertising `"h2"` via ALPN,
`"h2c"` sets HTTP/2 options with no TLS context, and any other value
leaves both unset; `translateCluster` is total, so no protocol value
fails. -/
theorem C9_protocol_switch (s1 s2 s3 : Service)
    (h1 : s1.Protocol = "h2") (h2 : s2.Protocol = "h2c")
    (h3 : s3.Protocol ≠ "h2") (h3' : s3.Protocol ≠ "h2c") :
    ((translateCluster s1).Http2ProtocolOptions = true
      ∧ (translateCluster s1).TlsContext =
          some { CommonTlsContext := { AlpnProtocols := ["h2"] } })
  ∧ ((translateCluster s2).Http2ProtocolOptions = true
      ∧ (translateCluster s2).TlsContext = none)
  ∧ ((translateCluster s3).Http2ProtocolOptions = false
      ∧ (translateCluster s3).TlsContext = none) :=
  ⟨translateCluster_protocol_h2 s1 h1,
   translateCluster_protocol_h2c s2 h2,
   translateCluster_protocol_default s3 h3 h3'⟩

/-- **C9** witness: the three outcomes at protocol values `"h2"`, `"h2c"`
and `""`. -/
theorem C9_protocol_switch_witness :
    ((translateCluster
        { Namespace := "d", Name := "w", ServicePort := ⟨"p", 1⟩,
          LoadBalancerStrategy := "", HealthCheck := none,
          MaxConnections := 0, MaxPendingRequests := 0, MaxRequests := 0,
          MaxRetries := 0, Protocol := "h2" }).Http2ProtocolOptions = true
      ∧ (translateCluster
        { Namespace := "d", Name := "w", ServicePort := ⟨"p", 1⟩,
          LoadBalancerStrategy := "", HealthCheck := none,
          MaxConnections := 0, MaxPendingRequests := 0, MaxRequests := 0,
          MaxRetries := 0, Protocol := "h2" }).TlsContext =
          some { CommonTlsContext := { AlpnProtocols := ["h2"] } })
  ∧ ((translateCluster
        { Namespace := "d", Name := "w", ServicePort := ⟨"p", 1⟩,
          LoadBalancerStrategy := "", HealthCheck := none,
          MaxConnections := 0, MaxPendingRequests := 0, MaxRequests := 0,
          MaxRetries := 0, Protocol := "h2c" }).Http2ProtocolOptions = true
      ∧ (translateCluster
        { Namespace := "d", Name := "w", ServicePort := ⟨"p", 1⟩,
          LoadBalancerStrategy := "", HealthCheck := none,
          MaxConnections := 0, MaxPendingRequests := 0, MaxRequests := 0,
          MaxRetries := 0, Protocol := "h2c" }).TlsContext = none)
  ∧ ((translateCluster
        { Namespace := "d", Name := "w", ServicePort := ⟨"p", 1⟩,
          LoadBalancerStrategy := "", HealthCheck := none,
          MaxConnections := 0, MaxPendingRequests := 0, MaxRequests := 0,
          MaxRetries := 0, Protocol := "" }).Http2ProtocolOptions = false
      ∧ (translateCluster
        { Namespace := "d", Name := "w", ServicePort := ⟨"p", 1⟩,
          LoadBalancerStrategy := "", HealthCheck := none,
          MaxConnections := 0, MaxPendingRequests := 0, MaxRequests := 0,
          MaxRetries := 0, Protocol := "" }).TlsContext = none) :=
  C9_protocol_switch
    { Namespace := "d", Name := "w", ServicePort := ⟨"p", 1⟩,
      LoadBalancerStrategy := "", HealthCheck := none,
      MaxConnections := 0, MaxPendingRequests := 0, MaxRequests := 0,
      MaxRetries := 0, Protocol := "h2" }
    { Namespace := "d", Name := "w", ServicePort := ⟨"p", 1⟩,
      LoadBalancerStrategy := "", HealthCheck := none,
      MaxConnections := 0, MaxPendingRequests := 0, MaxRequests := 0,
      MaxRetries := 0, Protocol := "h2c" }
    { Namespace := "d", Name := "w", ServicePort := ⟨"p", 1⟩,
      LoadBalancerStrategy := "", HealthCheck := none,
      MaxConnections := 0, MaxPendingRequests := 0, MaxRequests := 0,
      MaxRetries := 0, Protocol := "" }
    rfl rfl (by decide) (by decide)

/-! ### Lemmas about the identity string -/

lemma slashFree_iff (x : String) : slashFree x = true ↔ '/' ∉ x.data := by
  simp only [slashFree, List.all_eq_true, bne_iff_ne, ne_eq]
  constructor
  · intro h hmem
    exact h '/' hmem rfl
  · intro h c hc hcontra
    exact h (hcontra ▸ hc)

lemma intercalate_two (a b : String) :
    String.intercalate "/" [a, b] = a ++ "/" ++ b := by
  simp [String.intercalate, String.intercalate.go]

lemma intercalate_three (a b c : String) :
    String.intercalate "/" [a, b, c] = a ++ "/" ++ b ++ "/" ++ c := by
  simp [String.intercalate, String.intercalate.go]

lemma data_two (a b : String) :
    (a ++ "/" ++ b).data = a.data ++ '/' :: b.data := by
  simp [String.data_append]

lemma data_three (a b c : String) :
    (a ++ "/" ++ b ++ "/" ++ c).data =
      a.data ++ '/' :: (b.data ++ '/' :: c.data) := by
  simp [String.data_append]

lemma append_sep_inj (l1 r1 l2 r2 : List Char)
    (h1 : '/' ∉ l1) (h2 : '/' ∉ l2)
    (heq : l1 ++ '/' :: r1 = l2 ++ '/' :: r2) : l1 = l2 ∧ r1 = r2 := by
  induction l1 generalizing l2 with
  | nil =>
    cases l2 with
    | nil => simpa using heq
    | cons b t =>
      simp only [List.nil_append, List.cons_append, List.cons.injEq] at heq
      exact absurd (heq.1 ▸ List.mem_cons_self b t) h2
  | cons a t ih =>
    cases l2 with
    | nil =>
      simp only [List.nil_append, List.cons_append, List.cons.injEq] at heq
      exact absurd (heq.1.symm ▸ List.mem_cons_self a t) h1
    | cons b t2 =>
      simp only [List.cons_append, List.cons.injEq] at heq
      obtain ⟨rfl, hrest⟩ := heq
      have ht := ih t2 (fun hm => h1 (List.mem_cons_of_mem a hm))
        (fun hm => h2 (List.mem_cons_of_mem a hm)) hrest
      exact ⟨by rw [ht.1], ht.2⟩

lemma count_append_sep (l r : List Char) (hl : '/' ∉ l) :
    (l ++ '/' :: r).count '/' = 1 + r.count '/' := by
  rw [List.count_append, List.count_cons]
  rw [List.count_eq_zero.mpr hl]
  simp [Nat.add_comm]

/-! ### Theorems for the claims about the identity string -/

/-- **C7** (counterexample): the identity string does not use the port
number, so two service vertices that agree on namespace and name and both
have an unnamed port — yet different port numbers 80 and 8080, hence
different (namespace, name, port) triples — receive the same identity
string `"default/web"`: the mapping is not injective over (namespace,
name, port) triples. -/
theorem C7_counterexample :
    (edsconfig "contour"
      { Namespace := "default", Name := "web", ServicePort := ⟨"", 80⟩,
        LoadBalancerStrategy := "", HealthCheck := none,
        MaxConnections := 0, MaxPendingRequests := 0, MaxRequests := 0,
        MaxRetries := 0, Protocol := "" }).ServiceName =
    (edsconfig "contour"
      { Namespace := "default", Name := "web", ServicePort := ⟨"", 8080⟩,
        LoadBalancerStrategy := "", HealthCheck := none,
        MaxConnections := 0, MaxPendingRequests := 0, MaxRequests := 0,
        MaxRetries := 0, Protocol := "" }).ServiceName
  ∧ ({ Name := "", Port := 80 } : ServicePort) ≠ { Name := "", Port := 8080 } := by
  constructor
  · rfl
  · decide

/-- **C7** (amended): the identity string is the slash-joined path
namespace/name/port-name, with the port segment omitted when the port has
no name, and over slash-free components the mapping is injective in the
(namespace, name, port-name) triple; the port number does not participate,
so triples differing only in the number of an unnamed port collapse to one
identity. -/
theorem C7_identity (s t : Service)
    (hs1 : slashFree s.Namespace = true) (hs2 : slashFree s.Name = true)
    (hs3 : slashFree s.ServicePort.Name = true)
    (ht1 : slashFree t.Namespace = true) (ht2 : slashFree t.Name = true)
    (ht3 : slashFree t.ServicePort.Name = true)
    (heq : (edsconfig "contour" s).ServiceName =
      (edsconfig "contour" t).ServiceName) :
    ((edsconfig "contour" s).ServiceName =
       if s.ServicePort.Name = "" then s.Namespace ++ "/" ++ s.Name
       else s.Namespace ++ "/" ++ s.Name ++ "/" ++ s.ServicePort.Name)
  ∧ s.Namespace = t.Namespace ∧ s.Name = t.Name
  ∧ s.ServicePort.Name = t.ServicePort.Name := by
  have hform : ∀ u : Service, (edsconfig "contour" u).ServiceName =
      if u.ServicePort.Name = "" then u.Namespace ++ "/" ++ u.Name
      else u.Namespace ++ "/" ++ u.Name ++ "/" ++ u.ServicePort.Name := by
    intro u
    unfold edsconfig
    split
    · exact intercalate_two _ _
    · exact intercalate_three _ _ _
  refine ⟨hform s, ?_⟩
  rw [hform s, hform t] at heq
  have hd := congrArg String.data heq
  rw [slashFree_iff] at hs1 hs2 hs3 ht1 ht2 ht3
  by_cases hse : s.ServicePort.Name = "" <;> by_cases hte : t.ServicePort.Name = ""
  · rw [if_pos hse, if_pos hte, data_two, data_two] at hd
    obtain ⟨hns, hn⟩ := append_sep_inj _ _ _ _ hs1 ht1 hd
    exact ⟨String.ext hns, String.ext hn, hse.trans hte.symm⟩
  · exfalso
    rw [if_pos hse, if_neg hte, data_two, data_three] at hd
    have hcount := congrArg (List.count '/') hd
    rw [count_append_sep _ _ hs1, count_append_sep _ _ ht1,
      List.count_eq_zero.mpr hs2, count_append_sep _ _ ht2,
      List.count_eq_zero.mpr ht3] at hcount
    omega
  · exfalso
    rw [if_neg hse, if_pos hte, data_three, data_two] at hd
    have hcount := congrArg (List.count '/') hd
    rw [count_append_sep _ _ hs1, count_append_sep _ _ ht1,
      count_append_sep _ _ hs2, List.count_eq_zero.mpr hs3,
      List.count_eq_zero.mpr ht2] at hcount
    omega
  · rw [if_neg hse, if_neg hte, data_three, data_three] at hd
    obtain ⟨hns, hrest⟩ := append_sep_inj _ _ _ _ hs1 ht1 hd
    obtain ⟨hn, hpn⟩ := append_sep_inj _ _ _ _ hs2 ht2 hrest
    exact ⟨String.ext hns, String.ext hn, String.ext hpn⟩

/-- **C7** witness: two equal-identity slash-free inputs are forced to
agree on namespace, name and port name. -/
theorem C7_identity_witness :
    ((edsconfig "contour"
       { Namespace := "default", Name := "web", ServicePort := ⟨"http", 80⟩,
         LoadBalancerStrategy := "", HealthCheck := none,
         MaxConnections := 0, MaxPendingRequests := 0, MaxRequests := 0,
         MaxRetries := 0, Protocol := "" }).ServiceName =
       if ({ Name := "http", Port := 80 } : ServicePort).Name = "" then
         "default" ++ "/" ++ "web"
       else "default" ++ "/" ++ "web" ++ "/" ++
         ({ Name := "http", Port := 80 } : ServicePort).Name)
  ∧ "default" = "default" ∧ "web" = "web"
  ∧ ({ Name := "http", Port := 80 } : ServicePort).Name =
      ({ Name := "http", Port := 8080 } : ServicePort).Name :=
  C7_identity
    { Namespace := "default", Name := "web", ServicePort := ⟨"http", 80⟩,
      LoadBalancerStrategy := "", HealthCheck := none,
      MaxConnections := 0, MaxPendingRequests := 0, MaxRequests := 0,
      MaxRetries := 0, Protocol := "" }
    { Namespace := "default", Name := "web", ServicePort := ⟨"http", 8080⟩,
      LoadBalancerStrategy := "", HealthCheck := none,
      MaxConnections := 0, MaxPendingRequests := 0, MaxRequests := 0,
      MaxRetries := 0, Protocol := "" }
    (by decide) (by decide) (by decide) (by decide) (by decide) (by decide) rfl

/-! ### Lemmas about the visitor -/

lemma hasKey_iff (m : ClusterMap) (k : String) :
    hasKey m k = true ↔ k ∈ keys m := by
  simp only [hasKey, keys, List.any_eq_true, List.mem_map, decide_eq_true_eq]

lemma hasKey_append (m r : ClusterMap) (k : String) (h : hasKey m k = true) :
    hasKey (m ++ r) k = true := by
  rw [hasKey_iff] at h ⊢
  simp only [keys, List.map_append, List.mem_append]
  exact Or.inl h

lemma findCluster_append (m r : ClusterMap) (k : String)
    (h : hasKey m k = true) : findCluster (m ++ r) k = findCluster m k := by
  induction m with
  | nil => simp [hasKey] at h
  | cons p t ih =>
    by_cases hp : p.1 = k
    · simp [findCluster, hp]
    · have ht : hasKey t k = true := by
        simp only [hasKey, List.any_cons, Bool.or_eq_true, decide_eq_true_eq] at h
        rcases h with h | h
        · exact absurd h hp
        · exact h
      simp [findCluster, hp, ih ht]

lemma edscluster_of_hasKey (m : ClusterMap) (svc : Service)
    (h : hasKey m (Clustername svc) = true) : edscluster m svc = m := by
  simp [edscluster, h]

lemma edscluster_of_not_hasKey (m : ClusterMap) (svc : Service)
    (h : ¬ hasKey m (Clustername svc) = true) :
    edscluster m svc = m ++ [(Clustername svc, translateCluster svc)] := by
  simp [edscluster, h, translateCluster_Name]

lemma edscluster_prefix (m : ClusterMap) (svc : Service) :
    ∃ r, edscluster m svc = m ++ r := by
  by_cases h : hasKey m (Clustername svc) = true
  · exact ⟨[], by rw [edscluster_of_hasKey m svc h, List.append_nil]⟩
  · exact ⟨_, edscluster_of_not_hasKey m svc h⟩

lemma edscluster_nodup (m : ClusterMap) (svc : Service)
    (hnd : (keys m).Nodup) : (keys (edscluster m svc)).Nodup := by
  by_cases h : hasKey m (Clustername svc) = true
  · rw [edscluster_of_hasKey m svc h]
    exact hnd
  · rw [edscluster_of_not_hasKey m svc h]
    have hnot : Clustername svc ∉ keys m := fun hmem =>
      h ((hasKey_iff m (Clustername svc)).mpr hmem)
    simp only [keys, List.map_append, List.map_cons, List.map_nil]
    refine List.Nodup.append hnd (List.nodup_singleton _) ?_
    intro x hx hx2
    rw [List.mem_singleton] at hx2
    exact hnot (hx2 ▸ hx)

lemma edscluster_hasKey_self (m : ClusterMap) (svc : Service) :
    hasKey (edscluster m svc) (Clustername svc) = true := by
  by_cases h : hasKey m (Clustername svc) = true
  · rw [edscluster_of_hasKey m svc h]
    exact h
  · rw [edscluster_of_not_hasKey m svc h, hasKey_iff]
    simp [keys]

mutual

theorem visit_prefix : ∀ (m : ClusterMap) (g : Vertex), ∃ r, visit m g = m ++ r
  | m, .service svc children => by
      rcases edscluster_prefix m svc with ⟨r1, h1⟩
      rcases visitList_prefix (edscluster m svc) children with ⟨r2, h2⟩
      exact ⟨r1 ++ r2, by rw [visit, h2, h1, List.append_assoc]⟩
  | m, .generic children => by
      rcases visitList_prefix m children with ⟨r, hr⟩
      exact ⟨r, by rw [visit, hr]⟩

theorem visitList_prefix : ∀ (m : ClusterMap) (gs : List Vertex),
    ∃ r, visitList m gs = m ++ r
  | m, [] => ⟨[], by rw [visitList, List.append_nil]⟩
  | m, g :: gs => by
      rcases visit_prefix m g with ⟨r1, h1⟩
      rcases visitList_prefix (visit m g) gs with ⟨r2, h2⟩
      exact ⟨r1 ++ r2, by rw [visitList, h2, h1, List.append_assoc]⟩

end

mutual

theorem visit_nodup : ∀ (m : ClusterMap) (g : Vertex),
    (keys m).Nodup → (keys (visit m g)).Nodup
  | m, .service svc children, hnd => by
      rw [visit]
      exact visitList_nodup _ children (edscluster_nodup m svc hnd)
  | m, .generic children, hnd => by
      rw [visit]
      exact visitList_nodup m children hnd

theorem visitList_nodup : ∀ (m : ClusterMap) (gs : List Vertex),
    (keys m).Nodup → (keys (visitList m gs)).Nodup
  | _, [], hnd => hnd
  | m, g :: gs, hnd => by
      rw [visitList]
      exact visitList_nodup _ gs (visit_nodup m g hnd)

end

lemma visitList_hasKey_mono (m : ClusterMap) (gs : List Vertex) (k : String)
    (h : hasKey m k = true) : hasKey (visitList m gs) k = true := by
  rcases visitList_prefix m gs with ⟨r, hr⟩
  rw [hr]
  exact hasKey_append m r k h

/-! ### Theorem for the claim about deduplication -/

/-- **C6**: visiting preserves key uniqueness (at most one map entry per
identity); a service vertex whose identity already has an entry is skipped
without re-translation, yet its children are still traversed; and in one
compilation pass over a graph whose two root edges reach service vertices
with the same identity, the output map holds exactly one entry for that
identity, the translation of the first-visited vertex. -/
theorem C6_dedup (svc1 svc2 : Service) (ch1 ch2 : List Vertex)
    (m : ClusterMap) (g : Vertex)
    (hname : Clustername svc2 = Clustername svc1)
    (hnd : (keys m).Nodup) (hk : hasKey m (Clustername svc2) = true) :
    (keys (visit m g)).Nodup
  ∧ edscluster m svc2 = m
  ∧ visit m (.service svc2 ch2) = visitList m ch2
  ∧ (keys (VisitGraph [.service svc1 ch1, .service svc2 ch2])).count
      (Clustername svc2) = 1
  ∧ findCluster (VisitGraph [.service svc1 ch1, .service svc2 ch2])
      (Clustername svc2) = some (translateCluster svc1) := by
  have hskip := edscluster_of_hasKey m svc2 hk
  have hins : edscluster [] svc1 = [(Clustername svc1, translateCluster svc1)] := by
    apply edscluster_of_not_hasKey
    simp [hasKey]
  have hroot1 : visit ([] : ClusterMap) (.service svc1 ch1) =
      [(Clustername svc1, translateCluster svc1)] ++
        (visit ([] : ClusterMap) (.service svc1 ch1)).drop 1 := by
    rw [visit, hins]
    rcases visitList_prefix [(Clustername svc1, translateCluster svc1)] ch1 with ⟨r, hr⟩
    rw [hr]
    simp
  have hkey1 : hasKey (visit ([] : ClusterMap) (.service svc1 ch1))
      (Clustername svc1) = true := by
    rw [visit, hins]
    apply visitList_hasKey_mono
    simp [hasKey]
  have hfullkey : hasKey (VisitGraph [.service svc1 ch1, .service svc2 ch2])
      (Clustername svc1) = true := by
    show hasKey (visitList (visit ([] : ClusterMap) (.service svc1 ch1))
      [.service svc2 ch2]) (Clustername svc1) = true
    exact visitList_hasKey_mono _ _ _ hkey1
  have hfullnodup :
      (keys (VisitGraph [.service svc1 ch1, .service svc2 ch2])).Nodup := by
    apply visitList_nodup
    simp [keys]
  rw [hname]
  refine ⟨visit_nodup m g hnd, hskip, by rw [visit, hskip], ?_, ?_⟩
  · have hmem : Clustername svc1 ∈
        keys (VisitGraph [.service svc1 ch1, .service svc2 ch2]) :=
      (hasKey_iff _ _).mp hfullkey
    have hle := List.nodup_iff_count_le_one.mp hfullnodup (Clustername svc1)
    have hge := List.count_pos_iff.mpr hmem
    omega
  · show findCluster (visitList (visit ([] : ClusterMap) (.service svc1 ch1))
      [.service svc2 ch2]) (Clustername svc1) = some (translateCluster svc1)
    rcases visitList_prefix (visit ([] : ClusterMap) (.service svc1 ch1))
      [.service svc2 ch2] with ⟨r, hr⟩
    rw [hr, findCluster_append _ _ _ hkey1]
    conv_lhs => rw [hroot1]
    rw [findCluster_append _ _ _ (by simp [hasKey])]
    simp [findCluster]


/-- **C6** witness: two root edges to service vertices sharing identity
`"d/w/p"` (one `h2c`, one plain) produce exactly one entry, the first
vertex's translation; the skip at an existing entry still recurses into
children. -/
theorem C6_dedup_witness :
    (keys (visit [(Clustername svcPlain, translateCluster svcPlain)]
      (.generic []))).Nodup
  ∧ edscluster [(Clustername svcPlain, translateCluster svcPlain)] svcPlain =
      [(Clustername svcPlain, translateCluster svcPlain)]
  ∧ visit [(Clustername svcPlain, translateCluster svcPlain)]
      (.service svcPlain [.generic []]) =
      visitList [(Clustername svcPlain, translateCluster svcPlain)] [.generic []]
  ∧ (keys (VisitGraph [.service svcH2c [], .service svcPlain [.generic []]])).count
      (Clustername svcPlain) = 1
  ∧ findCluster (VisitGraph [.service svcH2c [], .service svcPlain [.generic []]])
      (Clustername svcPlain) = some (translateCluster svcH2c) :=
  C6_dedup svcH2c svcPlain [] [.generic []]
    [(Clustername svcPlain, translateCluster svcPlain)] (.generic [])
    rfl (by decide) (by decide)
